import Mathlib

/-!
Shallow embedding of the dune-cli Dune API client (src/src/lib/client.rs,
src/src/lib/types.rs, src/src/utils.rs).  Pure data types are translated
directly; the HTTP transport is abstracted as an oracle mapping a request
(identified by the only varying datum, the page offset, or the poll tick
index) to the decoded response, and the unbounded `while` loops of the
source are embedded with explicit fuel, `none` meaning the loop did not
terminate within the given fuel.
-/

namespace DuneCli

/-- Untyped JSON values (`serde_json::Value`).  Numbers are modelled as
integers, which covers every payload the claims touch; an object is its
field list in iteration order. -/
inductive Json where
  | null : Json
  | bool (b : Bool) : Json
  | num (n : Int) : Json
  | str (s : String) : Json
  | arr (elems : List Json) : Json
  | obj (fields : List (String × Json)) : Json

/-- Remote execution states (`ExecutionStatus` in src/src/lib/types.rs). -/
inductive ExecutionStatus where
  | QueryStatePending
  | QueryStateExecuting
  | QueryStateFailed
  | QueryStateCompleted
  | QueryStateCancelled
  | QueryStateExpired
  | QueryStateCompletedPartial
deriving DecidableEq

/-- Error kinds of the client (`DuneError` in src/src/lib/client.rs). -/
inductive DuneError where
  | RequestError
  | ParseError
  | EncodingError
  | QueryNotFinished
  | QueryStatusError (status : ExecutionStatus)
deriving DecidableEq

/-- Custom status deserializer (`deserialize_status` in src/src/lib/types.rs):
a closed match over the seven wire tokens, any other token is an error. -/
def deserialize_status (s : String) : Except String ExecutionStatus :=
  if s = "QUERY_STATE_PENDING" then .ok .QueryStatePending
  else if s = "QUERY_STATE_EXECUTING" then .ok .QueryStateExecuting
  else if s = "QUERY_STATE_FAILED" then .ok .QueryStateFailed
  else if s = "QUERY_STATE_COMPLETED" then .ok .QueryStateCompleted
  else if s = "QUERY_STATE_CANCELLED" then .ok .QueryStateCancelled
  else if s = "QUERY_STATE_EXPIRED" then .ok .QueryStateExpired
  else if s = "QUERY_STATE_COMPLETED_PARTIAL" then .ok .QueryStateCompletedPartial
  else .error ("Invalid variant: " ++ s)

/-- Result-page metadata (`QueryResultMetadata` in src/src/lib/types.rs);
the u128 counters are modelled as naturals. -/
structure QueryResultMetadata where
  column_names : List String
  column_types : List String
  datapoint_count : Nat
  total_row_count : Nat
  row_count : Nat
deriving DecidableEq

/-- One page of results (`QueryResult` in src/src/lib/types.rs). -/
structure QueryResult where
  metadata : QueryResultMetadata
  rows : List Json

/-- Decoded paginated-results payload (`QueryResultsResponse` in
src/src/lib/types.rs).  Note the `state` field is typed as a plain string
in the source, not an `ExecutionStatus`. -/
structure QueryResultsResponse where
  state : String
  execution_id : String
  is_execution_finished : Bool
  next_offset : Option Nat
  query_id : Nat
  result : QueryResult

/-- Metadata block of a status payload (`StatusResultMetadata`). -/
structure StatusResultMetadata where
  column_names : List String
  column_types : List String
  datapoint_count : Nat
  total_row_count : Nat
deriving DecidableEq

/-- Decoded status payload (`ExecutionStatusResponse`); its `state` token is
decoded through `deserialize_status`. -/
structure ExecutionStatusResponse where
  execution_id : String
  query_id : Nat
  is_execution_finished : Bool
  result_metadata : Option StatusResultMetadata
  status : ExecutionStatus
deriving DecidableEq

/-- Filter collection (`QueryResultsFilter` in src/src/lib/types.rs): a
tuple struct around an ordered vector of raw filter strings. -/
structure QueryResultsFilter where
  filters : List String
deriving DecidableEq

/-- The `QueryResultsFilter::new` constructor. -/
def QueryResultsFilter.new : QueryResultsFilter := ⟨[]⟩

/-- The `QueryResultsFilter::add_filter` method: pushes a filter at the end. -/
def QueryResultsFilter.add_filter (q : QueryResultsFilter) (filter : String) :
    QueryResultsFilter :=
  ⟨q.filters ++ [filter]⟩

/-- The `QueryResultsFilter::to_option_string` method: `None` when empty,
otherwise the filters joined with the literal separator. -/
def QueryResultsFilter.to_option_string (q : QueryResultsFilter) : Option String :=
  if q.filters.isEmpty then none
  else some (String.intercalate " AND " q.filters)

/-- Field lookup in a JSON object, as the derived serde decoder sees it. -/
def jGet (fields : List (String × Json)) (k : String) : Option Json :=
  (fields.find? (fun p => p.fst = k)).map Prod.snd

/-- Decode a JSON value as a string (serde `String`). -/
def asString : Json → Option String
  | .str s => some s
  | _ => none

/-- Decode a JSON value as a boolean (serde `bool`). -/
def asBool : Json → Option Bool
  | .bool b => some b
  | _ => none

/-- Decode a JSON value as an unsigned integer (serde `u64`/`u128`). -/
def asNat : Json → Option Nat
  | .num (Int.ofNat n) => some n
  | _ => none

/-- Decode a JSON value as an array of strings (serde `Vec<String>`). -/
def asStringList : Json → Option (List String)
  | .arr elems => elems.mapM asString
  | _ => none

/-- Decode an optional field the way serde decodes `Option<T>`: a missing
field or an explicit `null` is `none`; anything else must decode as `T`. -/
def decodeOptField (fields : List (String × Json)) (k : String)
    (dec : Json → Option α) : Option (Option α) :=
  match jGet fields k with
  | none => some none
  | some .null => some none
  | some v => (dec v).map some

/-- Derived decoder of `QueryResultMetadata` (src/src/lib/types.rs). -/
def decodeQueryResultMetadata (j : Json) : Option QueryResultMetadata :=
  match j with
  | .obj fields => do
    let column_names ← jGet fields "column_names" >>= asStringList
    let column_types ← jGet fields "column_types" >>= asStringList
    let datapoint_count ← jGet fields "datapoint_count" >>= asNat
    let total_row_count ← jGet fields "total_row_count" >>= asNat
    let row_count ← jGet fields "row_count" >>= asNat
    some ⟨column_names, column_types, datapoint_count, total_row_count, row_count⟩
  | _ => none

/-- Derived decoder of `QueryResult`: rows stay untyped JSON values. -/
def decodeQueryResult (j : Json) : Option QueryResult :=
  match j with
  | .obj fields => do
    let metadata ← jGet fields "metadata" >>= decodeQueryResultMetadata
    match jGet fields "rows" with
    | some (.arr rows) => some ⟨metadata, rows⟩
    | _ => none
  | _ => none

/-- Derived decoder of `QueryResultsResponse` (src/src/lib/types.rs).  The
`state` field is declared as `String` in the source, so the token is stored
verbatim and never checked against the status enumeration. -/
def decodeQueryResultsResponse (j : Json) : Option QueryResultsResponse :=
  match j with
  | .obj fields => do
    let state ← jGet fields "state" >>= asString
    let execution_id ← jGet fields "execution_id" >>= asString
    let is_execution_finished ← jGet fields "is_execution_finished" >>= asBool
    let next_offset ← decodeOptField fields "next_offset" asNat
    let query_id ← jGet fields "query_id" >>= asNat
    let result ← jGet fields "result" >>= decodeQueryResult
    some ⟨state, execution_id, is_execution_finished, next_offset, query_id, result⟩
  | _ => none

/-- Derived decoder of `StatusResultMetadata`. -/
def decodeStatusResultMetadata (j : Json) : Option StatusResultMetadata :=
  match j with
  | .obj fields => do
    let column_names ← jGet fields "column_names" >>= asStringList
    let column_types ← jGet fields "column_types" >>= asStringList
    let datapoint_count ← jGet fields "datapoint_count" >>= asNat
    let total_row_count ← jGet fields "total_row_count" >>= asNat
    some ⟨column_names, column_types, datapoint_count, total_row_count⟩
  | _ => none

/-- Derived decoder of `ExecutionStatusResponse` (src/src/lib/types.rs): the
`state` token goes through `deserialize_status`, whose failure fails the
whole decode. -/
def decodeExecutionStatusResponse (j : Json) : Option ExecutionStatusResponse :=
  match j with
  | .obj fields => do
    let execution_id ← jGet fields "execution_id" >>= asString
    let query_id ← jGet fields "query_id" >>= asNat
    let is_execution_finished ← jGet fields "is_execution_finished" >>= asBool
    let result_metadata ← decodeOptField fields "result_metadata" decodeStatusResultMetadata
    let stateToken ← jGet fields "state" >>= asString
    match deserialize_status stateToken with
    | .ok status =>
      some ⟨execution_id, query_id, is_execution_finished, result_metadata, status⟩
    | .error _ => none
  | _ => none

/-- Response decoding step of `get_execution_status` (src/src/lib/client.rs):
a body that does not decode is surfaced as `ParseError`. -/
def get_execution_status_decode (j : Json) : Except DuneError ExecutionStatusResponse :=
  match decodeExecutionStatusResponse j with
  | some r => .ok r
  | none => .error DuneError.ParseError

/-- Response decoding step of `get_query_results` for one page
(src/src/lib/client.rs): a body that does not decode is `ParseError`. -/
def query_results_response_decode (j : Json) : Except DuneError QueryResultsResponse :=
  match decodeQueryResultsResponse j with
  | some r => .ok r
  | none => .error DuneError.ParseError

/-- Parameter shape for a query-id results fetch (`QueryResultsParams`). -/
structure QueryResultsParams where
  columns : Option (List String)
  query_id : Nat
  offset : Nat
  limit : Nat
  ignore_max_datapoints_per_request : Bool
  filters : Option String
deriving DecidableEq

/-- Parameter shape for an execution-id results fetch
(`ExecutionResultsParams`). -/
structure ExecutionResultsParams where
  columns : Option (List String)
  execution_id : String
  offset : Nat
  limit : Nat
  ignore_max_datapoints_per_request : Bool
  filters : Option String
deriving DecidableEq

/-- Discriminated parameter union (`ResultsParams` in src/src/lib/types.rs). -/
inductive ResultsParams where
  | query (p : QueryResultsParams)
  | execution (p : ExecutionResultsParams)
deriving DecidableEq

/-- The `ResultsParams::update_offset` method. -/
def ResultsParams.update_offset : ResultsParams → Nat → ResultsParams
  | .query p, new_offset => .query { p with offset := new_offset }
  | .execution p, new_offset => .execution { p with offset := new_offset }

/-- The `ResultsParams::get_offset` method. -/
def ResultsParams.get_offset : ResultsParams → Nat
  | .query p => p.offset
  | .execution p => p.offset

/-- Rust `str::parse::<u64>` on the identifier string: an optional leading
plus sign, then at least one ASCII digit, and the value must fit in 64 bits
(overflow is a parse failure). -/
def parseU64 (s : String) : Option Nat :=
  let digits := match s.data with
    | '+' :: rest => rest
    | chars => chars
  if digits = [] then none
  else if digits.all Char.isDigit then
    let v := digits.foldl (fun acc c => acc * 10 + (c.toNat - 48)) 0
    if v < 2 ^ 64 then some v else none
  else none

/-- Target dispatch of `get_query_results` (src/src/lib/client.rs lines
100-124): the peek flag picks the page limit, and the identifier is routed
by whether it parses as a u64 (query id) or not (execution id).  The
revision in src/src/lib/client.rs spells no filter field when building the
params, so the filter slot is the absent filter. -/
def route (id : String) (peak : Bool) : String × ResultsParams :=
  let limit := if peak then 10 else 1000
  match parseU64 id with
  | some query_id =>
    ("v1/query/" ++ toString query_id ++ "/results",
     .query { columns := none, query_id := query_id, offset := 0, limit := limit,
              ignore_max_datapoints_per_request := false, filters := none })
  | none =>
    ("v1/execution/" ++ id ++ "/results",
     .execution { columns := none, execution_id := id, offset := 0, limit := limit,
                  ignore_max_datapoints_per_request := false, filters := none })

/-- The `while next_offset.is_some()` pagination loop of `get_query_results`
(src/src/lib/client.rs lines 163-204).  `fetch` abstracts one
encode-request-decode round trip for the page at a given offset (the offset
is the only component of the request that varies during a run); `fuel`
bounds the number of iterations, `none` meaning the loop was still running
when the fuel ran out.  The second component of the result is the list of
offsets requested, in order, appended to the accumulator `trace`. -/
def fetchLoopTrace (fetch : Nat → Except DuneError QueryResultsResponse) :
    Nat → Option Nat → List Json → List Nat →
    Option (Except DuneError (List Json) × List Nat)
  | _, none, rows, trace => some (.ok rows, trace)
  | 0, some _, _, _ => none
  | fuel + 1, some off, rows, trace =>
    match fetch off with
    | .error e => some (.error e, trace ++ [off])
    | .ok resp =>
      fetchLoopTrace fetch fuel resp.next_offset (rows ++ resp.result.rows)
        (trace ++ [off])

/-- The `get_query_results` pagination engine (src/src/lib/client.rs lines
98-207), instrumented with the list of offsets actually requested: the
first page is fetched at offset 0; an unfinished execution is
`QueryNotFinished`; peek mode stops after the first page; otherwise the
loop follows `next_offset` until it is absent. -/
def get_query_results (fetch : Nat → Except DuneError QueryResultsResponse)
    (peak : Bool) (fuel : Nat) :
    Option (Except DuneError QueryResult × List Nat) :=
  match fetch 0 with
  | .error e => some (.error e, [0])
  | .ok response =>
    if !response.is_execution_finished then
      some (.error DuneError.QueryNotFinished, [0])
    else
      let metadata := response.result.metadata
      let rows := response.result.rows
      if peak then some (.ok ⟨metadata, rows⟩, [0])
      else
        match fetchLoopTrace fetch fuel response.next_offset rows [0] with
        | none => none
        | some (.ok allRows, trace) => some (.ok ⟨metadata, allRows⟩, trace)
        | some (.error e, trace) => some (.error e, trace)

/-- Events observable from the poll loop of `get_query_results_when_ready`. -/
inductive PollEvent where
  | sleep (secs : Nat)
  | fetchStatus
deriving DecidableEq

/-- The poll loop of `get_query_results_when_ready` (src/src/lib/client.rs
lines 263-288): on each iteration it sleeps `poll_interval.unwrap_or(60)`
seconds first, then fetches the status of tick `i` through the oracle
`statuses`; Pending and Executing continue the loop, Completed ends it
successfully, any other status is `QueryStatusError(status)`, and a fetch
error is returned as is.  The trace records sleeps and status fetches in
order; `none` means the loop outlived its fuel. -/
def pollLoop (statuses : Nat → Except DuneError ExecutionStatus)
    (poll_interval : Option Nat) :
    Nat → Nat → List PollEvent → Option (Except DuneError Unit × List PollEvent)
  | 0, _, _ => none
  | fuel + 1, i, trace =>
    let trace := trace ++ [.sleep (poll_interval.getD 60), .fetchStatus]
    match statuses i with
    | .error e => some (.error e, trace)
    | .ok .QueryStateExecuting => pollLoop statuses poll_interval fuel (i + 1) trace
    | .ok .QueryStatePending => pollLoop statuses poll_interval fuel (i + 1) trace
    | .ok .QueryStateCompleted => some (.ok (), trace)
    | .ok status => some (.error (DuneError.QueryStatusError status), trace)

/-- The whole `get_query_results_when_ready` (src/src/lib/client.rs lines
257-291): run the poll loop; on success hand off to the pagination engine,
on failure return the error with an empty page trace (pagination never
invoked).  The result carries the poll-event trace and the page-offset
trace. -/
def get_query_results_when_ready
    (statuses : Nat → Except DuneError ExecutionStatus)
    (poll_interval : Option Nat)
    (fetch : Nat → Except DuneError QueryResultsResponse)
    (peak : Bool) (pollFuel pageFuel : Nat) :
    Option (Except DuneError QueryResult × List PollEvent × List Nat) :=
  match pollLoop statuses poll_interval pollFuel 0 [] with
  | none => none
  | some (.error e, pollTrace) => some (.error e, pollTrace, [])
  | some (.ok _, pollTrace) =>
    match get_query_results fetch peak pageFuel with
    | none => none
    | some (res, pageTrace) => some (res, pollTrace, pageTrace)

/-- The `Value::as_object` accessor: only a JSON object yields its map. -/
def Json.asObject : Json → Option (List (String × Json))
  | .obj fields => some fields
  | _ => none

/-- Cell rendering of save_json_as_csv (src/src/utils.rs lines 34-40):
strings verbatim, numbers and booleans stringified, null and nested
structures as the empty string. -/
def jsonValueToCsvString : Json → String
  | .str s => s
  | .num n => toString n
  | .bool b => toString b
  | .null => ""
  | _ => ""

/-- One data row of save_json_as_csv (src/src/utils.rs lines 29-44): for
each header key, the rendered value, or an empty cell when the key is
missing from the record. -/
def csvRow (headers : List String) (object : List (String × Json)) : List String :=
  headers.map (fun key =>
    match jGet object key with
    | some value => jsonValueToCsvString value
    | none => "")

/-- The record-writing loop of save_json_as_csv (src/src/utils.rs lines
27-47): a record that is a JSON object contributes one row, any other
record is skipped. -/
def csvDataRows (headers : List String) : List Json → List (List String)
  | [] => []
  | record :: rest =>
    match record.asObject with
    | some object => csvRow headers object :: csvDataRows headers rest
    | none => csvDataRows headers rest

/-- The save_json_as_csv sink (src/src/utils.rs), modelled as the records it
writes: the optional header row (the first record's keys, written only when
the first record is a JSON object) and then the data rows. -/
def save_json_as_csv (records : List Json) : Option (List String) × List (List String) :=
  let headers : List String :=
    match records.head? with
    | some first_record =>
      match first_record.asObject with
      | some object => object.map Prod.fst
      | none => []
    | none => []
  let headerRow : Option (List String) :=
    match records.head? with
    | some first_record =>
      match first_record.asObject with
      | some object => some (object.map Prod.fst)
      | none => none
    | none => none
  (headerRow, csvDataRows headers records)

section ServerModel

/-- Offset reached after `k` steps of following `next_offset` through an
always-decoding server, starting from an optional offset. -/
def chainIter (srv : Nat → QueryResultsResponse) : Nat → Option Nat → Option Nat
  | 0, s => s
  | k + 1, s =>
    match s with
    | none => none
    | some off => chainIter srv k (srv off).next_offset

/-- A server holding the global row list `R` and serving well-formed pages:
from any offset inside the result set it returns a non-empty contiguous
slice starting there and the offset just past it as `next_offset` (absent
when the slice reaches the end), and at offset 0 of an empty result set it
returns no rows and no `next_offset`.  This is the no-regression,
no-overlap behaviour the pagination invariant of the spec presumes. -/
def ServesRows (srv : Nat → QueryResultsResponse) (R : List Json) : Prop :=
  (R = [] → (srv 0).result.rows = [] ∧ (srv 0).next_offset = none) ∧
  ∀ off, off < R.length →
    (srv off).result.rows ≠ [] ∧
    off + (srv off).result.rows.length ≤ R.length ∧
    (srv off).result.rows = (R.drop off).take (srv off).result.rows.length ∧
    (srv off).next_offset =
      (if off + (srv off).result.rows.length < R.length
       then some (off + (srv off).result.rows.length) else none)

/-- A concrete well-behaved server: pages of size `pageSize` sliced out of
the row list `R`. -/
def sliceServer (meta : QueryResultMetadata) (R : List Json) (pageSize : Nat)
    (off : Nat) : QueryResultsResponse :=
  let rows := (R.drop off).take pageSize
  { state := "QUERY_STATE_COMPLETED", execution_id := "", is_execution_finished := true,
    next_offset :=
      if off + rows.length < R.length then some (off + rows.length) else none,
    query_id := 0, result := ⟨meta, rows⟩ }

/-- Classification of one poll tick, read off the match arms of the poll
loop: `none` for the non-terminal statuses, otherwise the outcome the loop
stops with. -/
def tickOutcome : Except DuneError ExecutionStatus → Option (Except DuneError Unit)
  | .error e => some (.error e)
  | .ok .QueryStatePending => none
  | .ok .QueryStateExecuting => none
  | .ok .QueryStateCompleted => some (.ok ())
  | .ok status => some (.error (DuneError.QueryStatusError status))

end ServerModel

/-! ## Helper lemmas -/

/-- Folding `add_filter` over a list appends the filters in order. -/
theorem foldl_add_filter (fs : List String) (acc : List String) :
    (fs.foldl QueryResultsFilter.add_filter ⟨acc⟩).filters = acc ++ fs := by
  induction fs generalizing acc with
  | nil => simp
  | cons f rest ih =>
    simp only [List.foldl_cons, QueryResultsFilter.add_filter]
    rw [ih]
    simp

/-! ## Claims -/

/-- C9: `to_option_string` maps the empty filter collection to `none`, a
single filter to exactly that string, and two or more filters to the
strings joined with the literal separator `" AND "`; `add_filter` keeps
insertion order, so the join is in insertion order. -/
theorem c9_filter_composition :
    QueryResultsFilter.new.to_option_string = none ∧
    (∀ s : String, (QueryResultsFilter.new.add_filter s).to_option_string = some s) ∧
    (∀ (s t : String) (rest : List String),
      (QueryResultsFilter.mk (s :: t :: rest)).to_option_string
        = some (String.intercalate " AND " (s :: t :: rest))) ∧
    (∀ fs : List String,
      (fs.foldl QueryResultsFilter.add_filter QueryResultsFilter.new).filters = fs) := by
  refine ⟨rfl, fun s => rfl, fun s t rest => rfl, fun fs => ?_⟩
  simpa using foldl_add_filter fs []

/-- C8: `get_query_results` routes a caller identifier by the u64 parsing
heuristic: a string parsing as a u64 goes to the query-id endpoint with
query-shaped parameters, any other string goes to the execution-id endpoint
with execution-shaped parameters; both shapes start at offset 0 and share
the limit chosen by the peek flag. -/
theorem c8_target_dispatch :
    (∀ (id : String) (peak : Bool) (q : Nat), parseU64 id = some q →
      route id peak =
        ("v1/query/" ++ toString q ++ "/results",
         ResultsParams.query
           { columns := none, query_id := q, offset := 0,
             limit := if peak then 10 else 1000,
             ignore_max_datapoints_per_request := false, filters := none })) ∧
    (∀ (id : String) (peak : Bool), parseU64 id = none →
      route id peak =
        ("v1/execution/" ++ id ++ "/results",
         ResultsParams.execution
           { columns := none, execution_id := id, offset := 0,
             limit := if peak then 10 else 1000,
             ignore_max_datapoints_per_request := false, filters := none })) := by
  constructor
  · intro id peak q h
    simp [route, h]
  · intro id peak h
    simp [route, h]

/-- Witness for C8: the all-digit identifier 4011227 goes to the query-id
endpoint, the ULID-shaped identifier goes to the execution-id endpoint. -/
theorem c8_witness :
    route "4011227" false =
      ("v1/query/" ++ toString 4011227 ++ "/results",
       ResultsParams.query
         { columns := none, query_id := 4011227, offset := 0,
           limit := if false then 10 else 1000,
           ignore_max_datapoints_per_request := false, filters := none }) ∧
    route "01J5ZMD33P6J413G1KQM6QTE4S" true =
      ("v1/execution/" ++ "01J5ZMD33P6J413G1KQM6QTE4S" ++ "/results",
       ResultsParams.execution
         { columns := none, execution_id := "01J5ZMD33P6J413G1KQM6QTE4S", offset := 0,
           limit := if true then 10 else 1000,
           ignore_max_datapoints_per_request := false, filters := none }) :=
  ⟨c8_target_dispatch.1 "4011227" false 4011227 (by decide),
   c8_target_dispatch.2 "01J5ZMD33P6J413G1KQM6QTE4S" true (by decide)⟩

/-- C4: when the first decoded page reports the execution not finished,
`get_query_results` fails with `QueryNotFinished` right away: the one page
request at offset 0 is the only request made, no rows are returned, and
this holds whatever the peek flag and the fuel. -/
theorem c4_query_not_finished
    (fetch : Nat → Except DuneError QueryResultsResponse)
    (response : QueryResultsResponse) (peak : Bool)
    (h0 : fetch 0 = .ok response)
    (hnf : response.is_execution_finished = false) :
    ∀ fuel, get_query_results fetch peak fuel
      = some (.error DuneError.QueryNotFinished, [0]) := by
  intro fuel
  simp [get_query_results, h0, hnf]

/-- Witness for C4: a concrete unfinished response yields `QueryNotFinished`
after the single page request. -/
theorem c4_witness :
    get_query_results
      (fun _ => .ok
        { state := "QUERY_STATE_EXECUTING", execution_id := "01J5", is_execution_finished := false,
          next_offset := none, query_id := 7,
          result := ⟨⟨[], [], 0, 0, 0⟩, []⟩ })
      false 5
      = some (.error DuneError.QueryNotFinished, [0]) :=
  c4_query_not_finished _ _ false rfl rfl 5

/-- C5: in peek mode `get_query_results` requests exactly one page whatever
the oracle answers (the trace is always `[0]`), and on a finished first
page returns that page's metadata and rows as a success, even when the
response carries a next-offset. -/
theorem c5_peek_single_page
    (fetch : Nat → Except DuneError QueryResultsResponse)
    (response : QueryResultsResponse)
    (h0 : fetch 0 = .ok response)
    (hfin : response.is_execution_finished = true) :
    (∀ (g : Nat → Except DuneError QueryResultsResponse) (fuel : Nat)
        (res : Except DuneError QueryResult) (tr : List Nat),
      get_query_results g true fuel = some (res, tr) → tr = [0]) ∧
    ∀ fuel, get_query_results fetch true fuel
      = some (.ok ⟨response.result.metadata, response.result.rows⟩, [0]) := by
  constructor
  · intro g fuel res tr h
    unfold get_query_results at h
    cases hg : g 0 with
    | error e => rw [hg] at h; simp at h; exact h.2.symm
    | ok r =>
      rw [hg] at h
      by_cases hf : r.is_execution_finished
      · simp [hf] at h; exact h.2.symm
      · simp [Bool.of_not_eq_true hf] at h; exact h.2.symm
  · intro fuel
    simp [get_query_results, h0, hfin]

/-- Witness for C5: a finished first page carrying a next-offset is returned
as is from peek mode with the single page request. -/
theorem c5_witness :
    get_query_results
      (fun _ => .ok
        { state := "QUERY_STATE_COMPLETED", execution_id := "01J5", is_execution_finished := true,
          next_offset := some 10, query_id := 7,
          result := ⟨⟨["a"], ["int"], 3, 3, 3⟩, [Json.num 1, Json.num 2]⟩ })
      true 0
      = some (.ok ⟨⟨["a"], ["int"], 3, 3, 3⟩, [Json.num 1, Json.num 2]⟩, [0]) :=
  (c5_peek_single_page _
    { state := "QUERY_STATE_COMPLETED", execution_id := "01J5", is_execution_finished := true,
      next_offset := some 10, query_id := 7,
      result := ⟨⟨["a"], ["int"], 3, 3, 3⟩, [Json.num 1, Json.num 2]⟩ }
    rfl rfl).2 0

/-- The record loop writes one row per JSON-object record and none for any
other record. -/
theorem csvDataRows_length (headers : List String) (records : List Json) :
    (csvDataRows headers records).length
      = (records.filter (fun r => r.asObject.isSome)).length := by
  induction records with
  | nil => rfl
  | cons record rest ih =>
    cases h : record.asObject with
    | none => simp [csvDataRows, h, List.filter, ih]
    | some object => simp [csvDataRows, h, List.filter, ih]

/-- C10: the CSV sink skips every record that is not a JSON object, so the
data-row count is the number of JSON-object records, and a non-object
record contributes no row at all; when the first record is not a JSON
object no header row is written, whatever the later records are. -/
theorem c10_csv_sink :
    (∀ records : List Json,
      (save_json_as_csv records).2.length
        = (records.filter (fun r => r.asObject.isSome)).length) ∧
    (∀ (first : Json) (rest : List Json), first.asObject = none →
      (save_json_as_csv (first :: rest)).1 = none) ∧
    (∀ (headers : List String) (record : Json) (rest : List Json),
      record.asObject = none →
      csvDataRows headers (record :: rest) = csvDataRows headers rest) := by
  refine ⟨fun records => csvDataRows_length _ records, ?_, ?_⟩
  · intro first rest h
    simp [save_json_as_csv, h]
  · intro headers record rest h
    simp [csvDataRows, h]

/-- Witness for C10: with a non-object first record and one object among
three records, one data row is written and no header row. -/
theorem c10_witness :
    (save_json_as_csv [Json.num 3, Json.obj [("a", Json.num 1)], Json.null]).2.length
      = ([Json.num 3, Json.obj [("a", Json.num 1)], Json.null].filter
          (fun r => r.asObject.isSome)).length ∧
    (save_json_as_csv (Json.num 3 :: [Json.obj [("a", Json.num 1)], Json.null])).1 = none :=
  ⟨c10_csv_sink.1 [Json.num 3, Json.obj [("a", Json.num 1)], Json.null],
   c10_csv_sink.2.1 (Json.num 3) [Json.obj [("a", Json.num 1)], Json.null] rfl⟩

/-- C3 (amended): the closed seven-token mapping governs the payloads that
decode their status through `deserialize_status` (the execute and status
responses): each documented token decodes to its variant, any other token
is a decode failure surfaced as `ParseError`; the paginated-results
response, by contrast, stores its `state` token verbatim as a string and
its decoding never consults the closed mapping. -/
theorem c3_status_decoding :
    (deserialize_status "QUERY_STATE_PENDING" = .ok .QueryStatePending ∧
     deserialize_status "QUERY_STATE_EXECUTING" = .ok .QueryStateExecuting ∧
     deserialize_status "QUERY_STATE_FAILED" = .ok .QueryStateFailed ∧
     deserialize_status "QUERY_STATE_COMPLETED" = .ok .QueryStateCompleted ∧
     deserialize_status "QUERY_STATE_CANCELLED" = .ok .QueryStateCancelled ∧
     deserialize_status "QUERY_STATE_EXPIRED" = .ok .QueryStateExpired ∧
     deserialize_status "QUERY_STATE_COMPLETED_PARTIAL"
       = .ok .QueryStateCompletedPartial) ∧
    (∀ s : String,
      s ∉ ["QUERY_STATE_PENDING", "QUERY_STATE_EXECUTING", "QUERY_STATE_FAILED",
           "QUERY_STATE_COMPLETED", "QUERY_STATE_CANCELLED", "QUERY_STATE_EXPIRED",
           "QUERY_STATE_COMPLETED_PARTIAL"] →
      deserialize_status s = .error ("Invalid variant: " ++ s)) ∧
    (∀ (fields : List (String × Json)) (s : String),
      jGet fields "state" = some (.str s) →
      deserialize_status s = .error ("Invalid variant: " ++ s) →
      get_execution_status_decode (.obj fields) = .error DuneError.ParseError) ∧
    (∀ (fields : List (String × Json)) (r : QueryResultsResponse),
      decodeQueryResultsResponse (.obj fields) = some r →
      jGet fields "state" = some (.str r.state)) := by
  refine ⟨⟨rfl, rfl, rfl, rfl, rfl, rfl, rfl⟩, ?_, ?_, ?_⟩
  · intro s h
    simp only [List.mem_cons, List.not_mem_nil, or_false] at h
    push_neg at h
    obtain ⟨h1, h2, h3, h4, h5, h6, h7⟩ := h
    simp [deserialize_status, h1, h2, h3, h4, h5, h6, h7]
  · intro fields s hs hbad
    unfold get_execution_status_decode
    suffices h : decodeExecutionStatusResponse (Json.obj fields) = none by rw [h]
    unfold decodeExecutionStatusResponse
    cases h1 : jGet fields "execution_id" >>= asString with
    | none => simp [h1]
    | some eid =>
      cases h2 : jGet fields "query_id" >>= asNat with
      | none => simp [h1, h2]
      | some qid =>
        cases h3 : jGet fields "is_execution_finished" >>= asBool with
        | none => simp [h1, h2, h3]
        | some fin =>
          cases h4 : decodeOptField fields "result_metadata" decodeStatusResultMetadata with
          | none => simp [h1, h2, h3, h4]
          | some rm =>
            have h5 : jGet fields "state" >>= asString = some s := by
              rw [hs]; rfl
            simp [h1, h2, h3, h4, h5, hbad]
  · intro fields r h
    unfold decodeQueryResultsResponse at h
    simp only [bind, Option.bind_eq_some] at h
    obtain ⟨state, hstate, eid, heid, fin, hfin, no, hno, qid, hqid, res, hres, hsome⟩ := h
    obtain ⟨v, hv, hvs⟩ := hstate
    cases v with
    | str s =>
      have hss : s = state := by simpa [asString] using hvs
      subst hss
      have hrs : r.state = s := by
        injection hsome with h2
        rw [← h2]
      rw [hrs]
      exact hv
    | null => simp [asString] at hvs
    | bool b => simp [asString] at hvs
    | num n => simp [asString] at hvs
    | arr elems => simp [asString] at hvs
    | obj fs => simp [asString] at hvs

/-- Counterexample to C3 as stated: a paginated-results payload whose state
token is outside the seven documented tokens decodes successfully (no
`ParseError`), because the source keeps `QueryResultsResponse.state` as a
plain string. -/
theorem c3_counterexample :
    query_results_response_decode
      (Json.obj
        [("state", Json.str "QUERY_STATE_SOMETHING_NEW"),
         ("execution_id", Json.str "01J5"),
         ("is_execution_finished", Json.bool true),
         ("query_id", Json.num 7),
         ("result", Json.obj
           [("metadata", Json.obj
             [("column_names", Json.arr []), ("column_types", Json.arr []),
              ("datapoint_count", Json.num 0), ("total_row_count", Json.num 0),
              ("row_count", Json.num 0)]),
            ("rows", Json.arr [])])])
      = .ok ⟨"QUERY_STATE_SOMETHING_NEW", "01J5", true, none, 7, ⟨⟨[], [], 0, 0, 0⟩, []⟩⟩ ∧
    deserialize_status "QUERY_STATE_SOMETHING_NEW"
      = .error ("Invalid variant: " ++ "QUERY_STATE_SOMETHING_NEW") :=
  ⟨rfl, rfl⟩

/-- Witness for C3: the unknown token "QUERY_STATE_NEW" is rejected by
`deserialize_status`, and a status payload carrying it decodes to
`ParseError`. -/
theorem c3_witness :
    deserialize_status "QUERY_STATE_NEW" = .error ("Invalid variant: " ++ "QUERY_STATE_NEW") ∧
    get_execution_status_decode (.obj [("state", Json.str "QUERY_STATE_NEW")])
      = .error DuneError.ParseError :=
  ⟨c3_status_decoding.2.1 "QUERY_STATE_NEW" (by decide),
   c3_status_decoding.2.2.1 [("state", Json.str "QUERY_STATE_NEW")] "QUERY_STATE_NEW" rfl
     (c3_status_decoding.2.1 "QUERY_STATE_NEW" (by decide))⟩

/-- Unfolding of the pagination engine over an always-decoding server with a
finished first page: the outcome is the loop's outcome, metadata coming
from the first page. -/
theorem get_query_results_ok_srv (srv : Nat → QueryResultsResponse)
    (hfin : (srv 0).is_execution_finished = true) (fuel : Nat) :
    get_query_results (fun o => Except.ok (srv o)) false fuel
      = match fetchLoopTrace (fun o => Except.ok (srv o)) fuel
          (srv 0).next_offset (srv 0).result.rows [0] with
        | none => none
        | some (.ok allRows, trace) =>
          some (.ok ⟨(srv 0).result.metadata, allRows⟩, trace)
        | some (.error e, trace) => some (.error e, trace) := by
  simp [get_query_results, hfin]

/-- A successful pagination loop appends exactly the rows of the pages it
requested, in request order. -/
theorem fetchLoopTrace_ok_concat (srv : Nat → QueryResultsResponse) :
    ∀ (fuel : Nat) (s : Option Nat) (rows : List Json) (tr : List Nat)
      (out : List Json) (tr' : List Nat),
      fetchLoopTrace (fun o => Except.ok (srv o)) fuel s rows tr
        = some (.ok out, tr') →
      ∃ offs, tr' = tr ++ offs ∧
        out = rows ++ offs.flatMap (fun o => (srv o).result.rows) := by
  intro fuel
  induction fuel with
  | zero =>
    intro s rows tr out tr' h
    cases s with
    | none =>
      simp [fetchLoopTrace] at h
      exact ⟨[], by simp [h.2.symm], by simp [h.1.symm]⟩
    | some off => simp [fetchLoopTrace] at h
  | succ n ih =>
    intro s rows tr out tr' h
    cases s with
    | none =>
      simp [fetchLoopTrace] at h
      exact ⟨[], by simp [h.2.symm], by simp [h.1.symm]⟩
    | some off =>
      rw [fetchLoopTrace] at h
      obtain ⟨offs, h1, h2⟩ := ih _ _ _ _ _ h
      refine ⟨off :: offs, by simp [h1], ?_⟩
      simp [h2, List.flatMap_cons, List.append_assoc]

/-- Against a server holding the row list `R`, the pagination loop entered
at an offset inside the result set terminates within `R.length - off` more
iterations and appends exactly the remaining rows `R.drop off`. -/
theorem serves_loop (srv : Nat → QueryResultsResponse) (R : List Json)
    (hserves : ServesRows srv R) :
    ∀ (fuel off : Nat) (rows : List Json) (tr : List Nat),
      off < R.length → R.length - off ≤ fuel →
      ∃ tr', fetchLoopTrace (fun o => Except.ok (srv o)) fuel (some off) rows tr
        = some (.ok (rows ++ R.drop off), tr') := by
  intro fuel
  induction fuel with
  | zero => intro off rows tr hlt hfuel; omega
  | succ n ih =>
    intro off rows tr hlt hfuel
    obtain ⟨hne, hle, hslice, hnext⟩ := hserves.2 off hlt
    simp only [fetchLoopTrace]
    by_cases hmore : off + (srv off).result.rows.length < R.length
    · rw [hnext, if_pos hmore]
      have hlen0 : (srv off).result.rows.length ≠ 0 := by
        intro h0; exact hne (List.eq_nil_of_length_eq_zero h0)
      have hstep : R.length - (off + (srv off).result.rows.length) ≤ n := by omega
      obtain ⟨tr', htr⟩ := ih (off + (srv off).result.rows.length)
        (rows ++ (srv off).result.rows) (tr ++ [off]) hmore hstep
      refine ⟨tr', ?_⟩
      rw [htr]
      have hdrop : R.drop (off + (srv off).result.rows.length)
          = (R.drop off).drop ((srv off).result.rows.length) :=
        (List.drop_drop _ _ _).symm
      have hcat : (rows ++ (srv off).result.rows)
            ++ R.drop (off + (srv off).result.rows.length)
          = rows ++ R.drop off := by
        rw [List.append_assoc, hdrop]
        congr 1
        nth_rewrite 1 [hslice]
        exact List.take_append_drop _ _
      rw [hcat]
    · rw [hnext, if_neg hmore]
      have hlen : (srv off).result.rows.length = (R.drop off).length := by
        rw [List.length_drop]; omega
      have hpage : (srv off).result.rows = R.drop off := by
        nth_rewrite 1 [hslice]
        rw [hlen, List.take_length]
      refine ⟨tr ++ [off], ?_⟩
      rw [hpage]
      simp [fetchLoopTrace]

/-- The pagination loop over an always-decoding server terminates within
its fuel exactly when following the next-offset chain reaches an absent
next-offset within the fuel. -/
theorem fetchLoopTrace_isSome_iff (srv : Nat → QueryResultsResponse) :
    ∀ (fuel : Nat) (s : Option Nat) (rows : List Json) (tr : List Nat),
      (fetchLoopTrace (fun o => Except.ok (srv o)) fuel s rows tr).isSome
        ↔ ∃ k, k ≤ fuel ∧ chainIter srv k s = none := by
  intro fuel
  induction fuel with
  | zero =>
    intro s rows tr
    cases s with
    | none =>
      simp only [fetchLoopTrace, Option.isSome_some, true_iff]
      exact ⟨0, Nat.le_refl 0, rfl⟩
    | some off =>
      simp only [fetchLoopTrace]
      constructor
      · intro h; simp at h
      · rintro ⟨k, hk, hchain⟩
        interval_cases k
        simp [chainIter] at hchain
  | succ n ih =>
    intro s rows tr
    cases s with
    | none =>
      simp only [fetchLoopTrace, Option.isSome_some, true_iff]
      exact ⟨0, Nat.zero_le _, rfl⟩
    | some off =>
      simp only [fetchLoopTrace]
      rw [ih]
      constructor
      · rintro ⟨k, hk, hchain⟩
        exact ⟨k + 1, by omega, by simpa [chainIter] using hchain⟩
      · rintro ⟨k, hk, hchain⟩
        cases k with
        | zero => simp [chainIter] at hchain
        | succ k' =>
          refine ⟨k', by omega, ?_⟩
          simpa [chainIter] using hchain

/-- C6: with an always-decoding server and a finished first page, the
non-peek pagination of `get_query_results` terminates for some fuel exactly
when the next-offset chain from the first page eventually reaches an absent
next-offset; and a server whose every response carries a next-offset (for
example one whose next-offset never increases) keeps the loop running
forever: no fuel suffices, and no error is ever produced. -/
theorem c6_pagination_termination (srv : Nat → QueryResultsResponse)
    (hfin : (srv 0).is_execution_finished = true) :
    ((∃ fuel, (get_query_results (fun o => Except.ok (srv o)) false fuel).isSome)
      ↔ ∃ k, chainIter srv k (srv 0).next_offset = none) ∧
    ((∀ off, ((srv off).next_offset).isSome) →
      ∀ fuel, get_query_results (fun o => Except.ok (srv o)) false fuel = none) := by
  have hshape : ∀ fuel,
      (get_query_results (fun o => Except.ok (srv o)) false fuel).isSome
        = (fetchLoopTrace (fun o => Except.ok (srv o)) fuel
            (srv 0).next_offset (srv 0).result.rows [0]).isSome := by
    intro fuel
    rw [get_query_results_ok_srv srv hfin fuel]
    cases h : fetchLoopTrace (fun o => Except.ok (srv o)) fuel
        (srv 0).next_offset (srv 0).result.rows [0] with
    | none => simp
    | some p =>
      obtain ⟨out, tr⟩ := p
      cases out <;> simp
  constructor
  · constructor
    · rintro ⟨fuel, hsome⟩
      rw [hshape] at hsome
      obtain ⟨k, _, hchain⟩ := (fetchLoopTrace_isSome_iff srv fuel _ _ _).mp hsome
      exact ⟨k, hchain⟩
    · rintro ⟨k, hchain⟩
      refine ⟨k, ?_⟩
      rw [hshape]
      exact (fetchLoopTrace_isSome_iff srv k _ _ _).mpr ⟨k, Nat.le_refl k, hchain⟩
  · intro hall fuel
    have hnever : ∀ (k : Nat) (s : Option Nat), s.isSome →
        (chainIter srv k s).isSome := by
      intro k
      induction k with
      | zero => intro s hs; simpa [chainIter] using hs
      | succ k' ih =>
        intro s hs
        cases s with
        | none => simp at hs
        | some off =>
          simp only [chainIter]
          exact ih _ (hall off)
    rw [← Option.not_isSome_iff_eq_none, hshape]
    rw [fetchLoopTrace_isSome_iff]
    rintro ⟨k, _, hchain⟩
    have := hnever k (srv 0).next_offset (hall 0)
    rw [hchain] at this
    simp at this

/-- Witness for C6: a server that always answers with next-offset 0 (a
non-increasing offset, accepted without error) keeps the loop running
forever: even a fuel of 1000 does not reach termination. -/
theorem c6_witness :
    get_query_results
      (fun _ => Except.ok
        ({ state := "QUERY_STATE_COMPLETED", execution_id := "01J5",
           is_execution_finished := true, next_offset := some 0, query_id := 7,
           result := ⟨⟨["a"], ["int"], 1, 1, 1⟩, [Json.num 1]⟩ } : QueryResultsResponse))
      false 1000 = none :=
  (c6_pagination_termination
    (fun _ =>
      { state := "QUERY_STATE_COMPLETED", execution_id := "01J5",
        is_execution_finished := true, next_offset := some 0, query_id := 7,
        result := ⟨⟨["a"], ["int"], 1, 1, 1⟩, [Json.num 1]⟩ })
    rfl).2 (fun _ => rfl) 1000

/-- A slicing server with a positive page size is well-behaved for its row
list. -/
theorem sliceServer_serves (meta : QueryResultMetadata) (R : List Json)
    (pageSize : Nat) (hps : 0 < pageSize) :
    ServesRows (sliceServer meta R pageSize) R := by
  constructor
  · intro hR
    subst hR
    exact ⟨by simp [sliceServer], by simp [sliceServer]⟩
  · intro off hlt
    refine ⟨?_, ?_, ?_, ?_⟩
    · have hpos : 0 < ((R.drop off).take pageSize).length := by
        simp only [List.length_take, List.length_drop]
        omega
      simpa [sliceServer] using List.length_pos.mp hpos
    · simp only [sliceServer, List.length_take, List.length_drop]
      omega
    · show (R.drop off).take pageSize
        = (R.drop off).take ((R.drop off).take pageSize).length
      rw [List.take_eq_take]
      simp only [List.length_take]
      omega
    · simp only [sliceServer]

/-- C2 (pagination invariant): for an always-decoding server with a
finished first page, first, every successful non-peek run returns the first
page's metadata and exactly the concatenation of the requested pages' rows
in request order; second, against a well-behaved server holding the row
list `R` (no regression) the run terminates with precisely the rows `R`,
whose count is the server-reported total row count; and third, an empty
first page (no rows, no next-offset) yields a success with empty rows and
the first page's metadata, not an error. -/
theorem c2_pagination (srv : Nat → QueryResultsResponse) (R : List Json)
    (hserves : ServesRows srv R)
    (hfin : (srv 0).is_execution_finished = true)
    (htotal : (srv 0).result.metadata.total_row_count = R.length) :
    (∀ (fuel : Nat) (qr : QueryResult) (tr : List Nat),
      get_query_results (fun o => Except.ok (srv o)) false fuel
        = some (.ok qr, tr) →
      qr.metadata = (srv 0).result.metadata ∧
      qr.rows = tr.flatMap (fun o => (srv o).result.rows)) ∧
    (∃ tr, get_query_results (fun o => Except.ok (srv o)) false R.length
        = some (.ok ⟨(srv 0).result.metadata, R⟩, tr) ∧
      R.length = (srv 0).result.metadata.total_row_count) ∧
    (R = [] → get_query_results (fun o => Except.ok (srv o)) false 0
      = some (.ok ⟨(srv 0).result.metadata, []⟩, [0])) := by
  have hempty : R = [] → ∀ fuel,
      get_query_results (fun o => Except.ok (srv o)) false fuel
        = some (.ok ⟨(srv 0).result.metadata, []⟩, [0]) := by
    intro hR fuel
    obtain ⟨hrows0, hnext0⟩ := hserves.1 hR
    rw [get_query_results_ok_srv srv hfin fuel, hnext0, hrows0]
    simp [fetchLoopTrace]
  refine ⟨?_, ?_, fun hR => hempty hR 0⟩
  · intro fuel qr tr h
    rw [get_query_results_ok_srv srv hfin fuel] at h
    cases hloop : fetchLoopTrace (fun o => Except.ok (srv o)) fuel
        (srv 0).next_offset (srv 0).result.rows [0] with
    | none => rw [hloop] at h; simp at h
    | some p =>
      obtain ⟨out, tr2⟩ := p
      cases out with
      | error e => rw [hloop] at h; simp at h
      | ok allRows =>
        rw [hloop] at h
        simp only [Option.some_inj, Prod.mk.injEq, Except.ok.injEq] at h
        obtain ⟨hq, htr⟩ := h
        obtain ⟨offs, htr2, hrows⟩ := fetchLoopTrace_ok_concat srv fuel _ _ _ _ _ hloop
        constructor
        · rw [← hq]
        · rw [← hq, ← htr, htr2, hrows]
          simp
  · by_cases hR : R = []
    · subst hR
      exact ⟨[0], hempty rfl 0, htotal.symm⟩
    · have h0 : 0 < R.length := List.length_pos.mpr hR
      obtain ⟨hne, hle, hslice, hnext⟩ := hserves.2 0 h0
      rw [get_query_results_ok_srv srv hfin R.length, hnext]
      by_cases hmore : 0 + (srv 0).result.rows.length < R.length
      · rw [if_pos hmore]
        obtain ⟨tr', htr⟩ := serves_loop srv R hserves R.length
          (0 + (srv 0).result.rows.length) (srv 0).result.rows [0] hmore
          (Nat.sub_le _ _)
        have hfull : (srv 0).result.rows
            ++ R.drop (0 + (srv 0).result.rows.length) = R := by
          nth_rewrite 1 [hslice]
          rw [List.drop_zero, Nat.zero_add, List.take_append_drop]
        refine ⟨tr', ?_, htotal.symm⟩
        rw [htr, hfull]
      · rw [if_neg hmore]
        have hpage : (srv 0).result.rows = R := by
          have hlenR : (srv 0).result.rows.length = R.length := by omega
          nth_rewrite 1 [hslice]
          rw [List.drop_zero, hlenR, List.take_length]
        refine ⟨[0], ?_, htotal.symm⟩
        rw [hpage]
        simp [fetchLoopTrace]

/-- Witness for C2: a three-row result set served in pages of two is
reassembled in full, with the server-reported total row count matched. -/
theorem c2_witness :
    ∃ tr, get_query_results
      (fun o => Except.ok
        (sliceServer ⟨["x"], ["int"], 3, 3, 3⟩ [Json.num 1, Json.num 2, Json.num 3] 2 o))
      false 3
      = some (.ok ⟨⟨["x"], ["int"], 3, 3, 3⟩, [Json.num 1, Json.num 2, Json.num 3]⟩, tr) ∧
    ([Json.num 1, Json.num 2, Json.num 3] : List Json).length = 3 :=
  (c2_pagination
    (sliceServer ⟨["x"], ["int"], 3, 3, 3⟩ [Json.num 1, Json.num 2, Json.num 3] 2)
    [Json.num 1, Json.num 2, Json.num 3]
    (sliceServer_serves ⟨["x"], ["int"], 3, 3, 3⟩ [Json.num 1, Json.num 2, Json.num 3] 2
      (by omega))
    rfl rfl).2.1

/-- Any outcome of the pagination loop only appends to the accumulated
trace. -/
theorem fetchLoopTrace_trace_prefix
    (fetch : Nat → Except DuneError QueryResultsResponse) :
    ∀ (fuel : Nat) (s : Option Nat) (rows : List Json) (tr : List Nat)
      (out : Except DuneError (List Json)) (tr' : List Nat),
      fetchLoopTrace fetch fuel s rows tr = some (out, tr') →
      ∃ suffix, tr' = tr ++ suffix := by
  intro fuel
  induction fuel with
  | zero =>
    intro s rows tr out tr' h
    cases s with
    | none =>
      simp [fetchLoopTrace] at h
      exact ⟨[], by simp [h.2.symm]⟩
    | some off => simp [fetchLoopTrace] at h
  | succ n ih =>
    intro s rows tr out tr' h
    cases s with
    | none =>
      simp [fetchLoopTrace] at h
      exact ⟨[], by simp [h.2.symm]⟩
    | some off =>
      simp only [fetchLoopTrace] at h
      cases hf : fetch off with
      | error e =>
        rw [hf] at h
        simp at h
        exact ⟨[off], by simp [h.2.symm]⟩
      | ok resp =>
        rw [hf] at h
        obtain ⟨suffix, hsuffix⟩ := ih _ _ _ _ _ h
        exact ⟨off :: suffix, by simp [hsuffix]⟩

/-- The poll loop, when the first terminal-or-error tick is tick `n`, stops
right after the status fetch of tick `n` with that tick's outcome, the
trace being `n + 1` sleep-then-fetch pairs: the loop sleeps before every
status fetch and never after the last one. -/
theorem pollLoop_spec (statuses : Nat → Except DuneError ExecutionStatus)
    (poll_interval : Option Nat) :
    ∀ (n i : Nat) (tr : List PollEvent) (out : Except DuneError Unit),
      (∀ k, k < n → tickOutcome (statuses (i + k)) = none) →
      tickOutcome (statuses (i + n)) = some out →
      ∀ fuel, n < fuel →
        pollLoop statuses poll_interval fuel i tr
          = some (out, tr ++ (List.replicate (n + 1)
              [PollEvent.sleep (poll_interval.getD 60),
               PollEvent.fetchStatus]).flatten) := by
  intro n
  induction n with
  | zero =>
    intro i tr out hpre hterm fuel hfuel
    obtain ⟨f, rfl⟩ : ∃ f, fuel = f + 1 := ⟨fuel - 1, by omega⟩
    rw [Nat.add_zero] at hterm
    cases hst : statuses i with
    | error e =>
      rw [hst] at hterm
      simp [tickOutcome] at hterm
      simp [pollLoop, hst, ← hterm]
    | ok st =>
      rw [hst] at hterm
      cases st <;> simp [tickOutcome] at hterm <;>
        simp [pollLoop, hst, ← hterm, tickOutcome]
  | succ n ih =>
    intro i tr out hpre hterm fuel hfuel
    obtain ⟨f, rfl⟩ : ∃ f, fuel = f + 1 := ⟨fuel - 1, by omega⟩
    have h0 : tickOutcome (statuses (i + 0)) = none := hpre 0 (by omega)
    rw [Nat.add_zero] at h0
    have hstep : pollLoop statuses poll_interval f (i + 1)
        (tr ++ [PollEvent.sleep (poll_interval.getD 60), PollEvent.fetchStatus])
        = some (out, (tr ++ [PollEvent.sleep (poll_interval.getD 60),
            PollEvent.fetchStatus]) ++ (List.replicate (n + 1)
            [PollEvent.sleep (poll_interval.getD 60),
             PollEvent.fetchStatus]).flatten) := by
      refine ih (i + 1) _ out ?_ ?_ f (by omega)
      · intro k hk
        have := hpre (k + 1) (by omega)
        rwa [show i + (k + 1) = i + 1 + k by omega] at this
      · rwa [show i + (n + 1) = i + 1 + n by omega] at hterm
    cases hst : statuses i with
    | error e => rw [hst] at h0; simp [tickOutcome] at h0
    | ok st =>
      rw [hst] at h0
      cases st <;> simp [tickOutcome] at h0 <;>
        · simp only [pollLoop, hst]
          rw [hstep]
          simp [List.replicate_succ, List.append_assoc]

/-- C7 (amended): on every tick the poll loop first sleeps for the
configured interval (`poll_interval` with default 60 when the caller
supplies none) and then fetches the execution status; on a non-terminal
status (Pending or Executing) it ticks again, and on the first terminal or
erroneous tick `n` it stops immediately after that fetch — the trace is
exactly `n + 1` sleep-then-fetch pairs, with no sleep after the terminal
fetch, and a fetch error is propagated at once as the loop's outcome. -/
theorem c7_poll_order (statuses : Nat → Except DuneError ExecutionStatus)
    (poll_interval : Option Nat) (n : Nat) (out : Except DuneError Unit)
    (hpre : ∀ k, k < n → tickOutcome (statuses k) = none)
    (hterm : tickOutcome (statuses n) = some out) :
    ∀ fuel, n < fuel →
      pollLoop statuses poll_interval fuel 0 []
        = some (out, (List.replicate (n + 1)
            [PollEvent.sleep (poll_interval.getD 60),
             PollEvent.fetchStatus]).flatten) := by
  intro fuel hfuel
  have h := pollLoop_spec statuses poll_interval n 0 [] out
    (fun k hk => by simpa using hpre k hk) (by simpa using hterm) fuel hfuel
  simpa using h

/-- Counterexample to C7 as stated: when the very first fetched status is
already terminal (Completed), the trace still opens with a sleep of the
default 60 time units — the code sleeps before each status fetch, it does
not fetch first and sleep only on non-terminal statuses. -/
theorem c7_counterexample :
    pollLoop (fun _ => Except.ok ExecutionStatus.QueryStateCompleted) none 1 0 []
      = some (.ok (), [PollEvent.sleep 60, PollEvent.fetchStatus]) ∧
    [PollEvent.sleep 60, PollEvent.fetchStatus].head? = some (PollEvent.sleep 60) :=
  ⟨rfl, rfl⟩

/-- Witness for C7: two Pending ticks followed by a Failed tick give three
sleep-then-fetch pairs and the status error, with no retry of the terminal
tick. -/
theorem c7_witness :
    pollLoop
      (fun i => if i < 2 then Except.ok ExecutionStatus.QueryStatePending
                else Except.ok ExecutionStatus.QueryStateFailed) none 5 0 []
      = some (.error (DuneError.QueryStatusError ExecutionStatus.QueryStateFailed),
          (List.replicate 3 [PollEvent.sleep 60, PollEvent.fetchStatus]).flatten) :=
  c7_poll_order
    (fun i => if i < 2 then Except.ok ExecutionStatus.QueryStatePending
              else Except.ok ExecutionStatus.QueryStateFailed) none 2
    (.error (DuneError.QueryStatusError ExecutionStatus.QueryStateFailed))
    (fun k hk => by interval_cases k <;> rfl) rfl 5 (by omega)

/-- C1 (amended): the poll loop of `get_query_results_when_ready` treats
Completed as the only terminal-success status — there it hands off to the
pagination engine, whose very first request is the page at offset 0 — while
CompletedPartial, Failed, Cancelled and Expired are all terminal failures
returned as `QueryStatusError` carrying that specific status, with the
pagination engine never invoked (no page request is made). -/
theorem c1_terminal_classification
    (statuses : Nat → Except DuneError ExecutionStatus) (poll_interval : Option Nat)
    (fetch : Nat → Except DuneError QueryResultsResponse) (peak : Bool) (n : Nat)
    (hpre : ∀ k, k < n → statuses k = .ok .QueryStatePending ∨
      statuses k = .ok .QueryStateExecuting) :
    (∀ (fuel : Nat) (res : Except DuneError QueryResult) (tr : List Nat),
      get_query_results fetch peak fuel = some (res, tr) → tr.head? = some 0) ∧
    (statuses n = .ok .QueryStateCompleted →
      ∀ pollFuel, n < pollFuel → ∀ pageFuel,
        get_query_results_when_ready statuses poll_interval fetch peak pollFuel pageFuel
          = (get_query_results fetch peak pageFuel).map
              (fun rt => (rt.1,
                (List.replicate (n + 1) [PollEvent.sleep (poll_interval.getD 60),
                  PollEvent.fetchStatus]).flatten, rt.2))) ∧
    (∀ status, (status = ExecutionStatus.QueryStateFailed ∨
        status = ExecutionStatus.QueryStateCancelled ∨
        status = ExecutionStatus.QueryStateExpired ∨
        status = ExecutionStatus.QueryStateCompletedPartial) →
      statuses n = .ok status →
      ∀ pollFuel, n < pollFuel → ∀ pageFuel,
        get_query_results_when_ready statuses poll_interval fetch peak pollFuel pageFuel
          = some (.error (DuneError.QueryStatusError status),
              (List.replicate (n + 1) [PollEvent.sleep (poll_interval.getD 60),
                PollEvent.fetchStatus]).flatten, [])) := by
  have htick : ∀ k, k < n → tickOutcome (statuses k) = none := by
    intro k hk
    rcases hpre k hk with h | h <;> rw [h] <;> rfl
  refine ⟨?_, ?_, ?_⟩
  · intro fuel res tr h
    unfold get_query_results at h
    cases hf : fetch 0 with
    | error e => rw [hf] at h; simp at h; simp [← h.2]
    | ok resp =>
      rw [hf] at h
      by_cases hfin : resp.is_execution_finished
      · simp only [hfin, Bool.not_true, Bool.false_eq_true, if_false] at h
        cases peak with
        | true => simp at h; simp [← h.2]
        | false =>
          simp only [if_neg Bool.false_ne_true] at h
          cases hloop : fetchLoopTrace fetch fuel resp.next_offset resp.result.rows [0] with
          | none => rw [hloop] at h; simp at h
          | some p =>
            obtain ⟨out, tr2⟩ := p
            obtain ⟨suffix, hsuffix⟩ :=
              fetchLoopTrace_trace_prefix fetch fuel _ _ _ _ _ hloop
            rw [hloop] at h
            cases out with
            | ok allRows =>
              simp at h
              rw [← h.2, hsuffix]
              simp
            | error e =>
              simp at h
              rw [← h.2, hsuffix]
              simp
      · simp only [Bool.not_eq_true] at hfin
        simp [hfin] at h
        simp [← h.2]
  · intro hst pollFuel hfuel pageFuel
    have hpoll := pollLoop_spec statuses poll_interval n 0 [] (.ok ())
      (fun k hk => by simpa using htick k hk) (by simp [tickOutcome, hst])
      pollFuel hfuel
    unfold get_query_results_when_ready
    rw [hpoll]
    cases hg : get_query_results fetch peak pageFuel with
    | none => simp
    | some rt =>
      obtain ⟨res, ptr⟩ := rt
      simp
  · intro status hone hst pollFuel hfuel pageFuel
    have houtcome : tickOutcome (statuses n)
        = some (.error (DuneError.QueryStatusError status)) := by
      rcases hone with h | h | h | h <;> subst h <;> rw [hst] <;> rfl
    have hpoll := pollLoop_spec statuses poll_interval n 0 []
      (.error (DuneError.QueryStatusError status))
      (fun k hk => by simpa using htick k hk) (by simpa using houtcome)
      pollFuel hfuel
    unfold get_query_results_when_ready
    rw [hpoll]
    simp

/-- Counterexample to C1 as stated: an execution whose first polled status
is CompletedPartial is returned as `QueryStatusError(CompletedPartial)` and
the pagination engine is never invoked (empty page trace) — the code does
not treat CompletedPartial as a terminal success. -/
theorem c1_counterexample :
    get_query_results_when_ready
      (fun _ => Except.ok ExecutionStatus.QueryStateCompletedPartial) none
      (fun _ => Except.ok
        { state := "QUERY_STATE_COMPLETED_PARTIAL", execution_id := "01J5",
          is_execution_finished := true, next_offset := none, query_id := 7,
          result := ⟨⟨[], [], 0, 0, 0⟩, []⟩ }) false 1 1
      = some (.error (DuneError.QueryStatusError
            ExecutionStatus.QueryStateCompletedPartial),
          [PollEvent.sleep 60, PollEvent.fetchStatus], []) := rfl

/-- Witness for C1: a first polled status of Failed yields
`QueryStatusError(Failed)` with no page request. -/
theorem c1_witness :
    get_query_results_when_ready (fun _ => Except.ok ExecutionStatus.QueryStateFailed)
      none
      (fun _ => Except.ok
        { state := "QUERY_STATE_COMPLETED", execution_id := "01J5",
          is_execution_finished := true, next_offset := none, query_id := 7,
          result := ⟨⟨[], [], 0, 0, 0⟩, []⟩ }) false 1 1
      = some (.error (DuneError.QueryStatusError ExecutionStatus.QueryStateFailed),
          [PollEvent.sleep 60, PollEvent.fetchStatus], []) :=
  (c1_terminal_classification (fun _ => Except.ok ExecutionStatus.QueryStateFailed)
    none
    (fun _ => Except.ok
      { state := "QUERY_STATE_COMPLETED", execution_id := "01J5",
        is_execution_finished := true, next_offset := none, query_id := 7,
        result := ⟨⟨[], [], 0, 0, 0⟩, []⟩ }) false 0
    (fun k hk => absurd hk (by omega))).2.2
    ExecutionStatus.QueryStateFailed (Or.inl rfl) rfl 1 (by omega) 1

end DuneCli
